import Mathlib

/-!
Verification of the profiling-export → flame-graph transform
(`src/parser.ts`, `parseProfilerForFlameGraph`).

Shallow embedding conventions:
* JS numbers (durations) are modelled as `ℚ`; node weights (`value`) as `ℤ`.
* JS `Record<string, number[]>` queue maps are modelled as `String → List ℚ`.
* The normalized snapshot table (`Record<number, SnapshotNode>`) is modelled as
  an association list `List (Nat × SnapshotNode)` kept in ascending-id order,
  which is the iteration order JS guarantees for integer-indexed object keys.
* The recursive tree builder is not structurally recursive on the snapshot
  graph (the source recurses on child ids and can diverge on cyclic tables),
  so it is embedded with an explicit fuel parameter; `none` means the fuel ran
  out.  `BuildsTo`/`ParseTerminates` quantify the fuel away, giving the graph
  of the partial function the source denotes.
-/

namespace Profiler

/-- Output node (`FlameGraphNode` in `parser.ts`).  `children` is `none`
exactly when the source leaves the field `undefined`; the three optional
string fields are `none` when absent. -/
inductive FlameGraphNode where
  | mk (name : String) (value : ℤ) (children : Option (List FlameGraphNode))
      (tooltip : Option String) (backgroundColor : Option String)
      (color : Option String)

def FlameGraphNode.name : FlameGraphNode → String
  | .mk n _ _ _ _ _ => n

def FlameGraphNode.value : FlameGraphNode → ℤ
  | .mk _ v _ _ _ _ => v

def FlameGraphNode.children : FlameGraphNode → Option (List FlameGraphNode)
  | .mk _ _ c _ _ _ => c

def FlameGraphNode.tooltip : FlameGraphNode → Option String
  | .mk _ _ _ t _ _ => t

def FlameGraphNode.backgroundColor : FlameGraphNode → Option String
  | .mk _ _ _ _ b _ => b

def FlameGraphNode.color : FlameGraphNode → Option String
  | .mk _ _ _ _ _ c => c

/-- One structural snapshot record (`SnapshotNode` in `parser.ts`).
The fields the transform never reads (`id`, `hocDisplayNames`, `key`,
`compiledWithForget`) are omitted.  `displayName : Option String` models the
nullable field; JS truthiness tests additionally treat `""` as absent. -/
structure SnapshotNode where
  children : List Nat
  displayName : Option String
  type : Nat
  deriving DecidableEq

/-- Normalized snapshot table: ascending-id association list (the canonical
form of a JS object with integer-index keys). -/
abbrev Snapshots := List (Nat × SnapshotNode)

/-- The raw `snapshots` field of a root entry: either an array of
`[id, node]` tuples or an already id-keyed object. -/
inductive SnapshotsInput where
  | arr (pairs : List (Nat × SnapshotNode))
  | obj (table : List (Nat × SnapshotNode))
  deriving DecidableEq

/-- `snapshots[id]` on the normalized table. -/
def lookupSnap (s : Snapshots) (id : Nat) : Option SnapshotNode :=
  match s.find? (fun p => p.1 == id) with
  | some p => some p.2
  | none => none

/-- Insert one key/value pair into a JS object (ascending integer-index key
order, assignment to an existing key replaces the value in place). -/
def objInsert : List (Nat × SnapshotNode) → Nat → SnapshotNode →
    List (Nat × SnapshotNode)
  | [], k, v => [(k, v)]
  | (k', v') :: t, k, v =>
    if k < k' then (k, v) :: (k', v') :: t
    else if k = k' then (k, v) :: t
    else (k', v') :: objInsert t k v

/-- `Object.fromEntries` on an array of `[id, node]` tuples: later entries
overwrite earlier ones, and the resulting object iterates its integer-index
keys in ascending order. -/
def fromEntries (ps : List (Nat × SnapshotNode)) : List (Nat × SnapshotNode) :=
  ps.foldl (fun m p => objInsert m p.1 p.2) []

/-- Lines 127-131 / 248-253: `Array.isArray(root.snapshots) ?
Object.fromEntries(root.snapshots) : root.snapshots`. -/
def normalizeSnapshots : SnapshotsInput → Snapshots
  | .arr ps => fromEntries ps
  | .obj t => t

/-- One component render measure (only the fields the transform reads). -/
structure Measure where
  componentName : String
  duration : ℚ
  timestamp : ℚ
  type : String
  deriving DecidableEq

/-- One timeline record; `componentMeasures` is `none` when the field is not
an array (`Array.isArray` guard, line 104). -/
structure Timeline where
  componentMeasures : Option (List Measure)
  deriving DecidableEq

/-- One commit record; `fiberActualDurations` is `none` when the field is not
an array (`Array.isArray` guard, line 124). -/
structure Commit where
  fiberActualDurations : Option (List (Nat × ℚ))
  deriving DecidableEq

/-- One root entry of `dataForRoots` (only the fields the transform reads);
`commitData` is `none` when not an array (`Array.isArray` guard, line 122). -/
structure RootData where
  commitData : Option (List Commit)
  snapshots : SnapshotsInput
  deriving DecidableEq

/-- The profiling export (only the fields the transform reads);
`timelineData` is `none` when not an array (`Array.isArray` guard, line 102). -/
structure ProfilerJSON where
  dataForRoots : List RootData
  timelineData : Option (List Timeline)
  deriving DecidableEq

/-- `c` is one of the code points ECMAScript `.` does not match. -/
def isLineTerm (c : Char) : Bool :=
  c = '\n' || c = '\r' || c.val = 0x2028 || c.val = 0x2029

/-- Lines 90-96: match `name` against `/^Memo\((.+)\)$/`.  The anchored greedy
capture, when the regex matches, is everything strictly between `Memo(` and
the final `)`; `.` requires every captured character to be a non-line
terminator and `+` requires at least one captured character. -/
def parseMemo (name : String) : String × Bool :=
  if name.toList.take 5 = "Memo(".toList ∧ 7 ≤ name.toList.length ∧
      name.toList.getLast? = some ')' ∧
      ((name.toList.drop 5).dropLast.all fun c => !isLineTerm c) = true then
    (String.mk ((name.toList.drop 5).dropLast), true)
  else
    (name, false)

/-- The canonicalization `isMemo ? base + " (Memo)" : base` applied after
every `parseMemo` call (lines 107-108, 136-137, 164-165). -/
def canonName (name : String) : String :=
  let r := parseMemo name
  if r.2 then r.1 ++ " (Memo)" else r.1

/-- Per-canonical-name duration queues (`Record<string, number[]>`; a name
with no entry behaves like an empty queue). -/
abbrev DurMap := String → List ℚ

def emptyDM : DurMap := fun _ => []

/-- `m[name].push(d)` (creating the queue when absent). -/
def pushDur (m : DurMap) (name : String) (d : ℚ) : DurMap :=
  fun n => if n = name then m n ++ [d] else m n

/-- Loop body of lines 105-114: keep measures with a truthy `componentName`
and `type === 'render'`, canonicalize the label, append the duration. -/
def pushMeasure (m : DurMap) (meas : Measure) : DurMap :=
  if meas.componentName ≠ "" ∧ meas.type = "render" then
    pushDur m (canonName meas.componentName) meas.duration
  else m

/-- Lines 102-118: build `componentDurations` by scanning every timeline's
`componentMeasures` in document order. -/
def buildComponentDurations (j : ProfilerJSON) : DurMap :=
  match j.timelineData with
  | none => emptyDM
  | some tls =>
    tls.foldl
      (fun m tl =>
        match tl.componentMeasures with
        | none => m
        | some ms => ms.foldl pushMeasure m)
      emptyDM

/-- Loop body of lines 125-143: resolve a `(fiberId, duration)` pair through
the normalized snapshot table; nodes that are missing or have a falsy
`displayName` contribute nothing. -/
def pushFiber (snaps : Snapshots) (m : DurMap) (p : Nat × ℚ) : DurMap :=
  match lookupSnap snaps p.1 with
  | some node =>
    match node.displayName with
    | some s => if s ≠ "" then pushDur m (canonName s) p.2 else m
    | none => m
  | none => m

/-- Lines 121-148: build `componentTotalDurations` from every root's commit
data.  (The source re-normalizes `root.snapshots` inside the innermost loop;
normalizing once per root is the same value.) -/
def buildComponentTotalDurations (j : ProfilerJSON) : DurMap :=
  j.dataForRoots.foldl
    (fun m root =>
      match root.commitData with
      | none => m
      | some commits =>
        commits.foldl
          (fun m c =>
            match c.fiberActualDurations with
            | none => m
            | some fads =>
              fads.foldl (pushFiber (normalizeSnapshots root.snapshots)) m)
          m)
    emptyDM

/-- The two mutable queue maps the builder consumes (lines 99-100). -/
structure DurState where
  componentTotalDurations : DurMap
  componentDurations : DurMap

/-- Lines 181-183 / 186-188: `if (q[name] && q[name].length > 0) q[name].shift()`
— returns the dequeued head (if any) and the updated map. -/
def shiftQueue (m : DurMap) (name : String) : Option ℚ × DurMap :=
  match m name with
  | [] => (none, m)
  | d :: rest => (some d, fun n => if n = name then rest else m n)

/-- Line 157: `node.displayName || (node.type === 11 ? 'Fragment' : 'Unknown')`
(`||` treats both `null` and `""` as absent). -/
def resolveDisplayName (n : SnapshotNode) : String :=
  match n.displayName with
  | some s => if s = "" then (if n.type = 11 then "Fragment" else "Unknown") else s
  | none => if n.type = 11 then "Fragment" else "Unknown"

/-- JS `Math.round` (half toward +∞) on an exact rational. -/
def jsRound (q : ℚ) : ℤ := ⌊q + 1 / 2⌋

/-- Decimal digits of `n` left-padded with zeros to width `k`. -/
def padZeros (n : Nat) (k : Nat) : String :=
  let s := toString n
  if s.length ≥ k then s else String.mk (List.replicate (k - s.length) '0') ++ s

/-- JS `Number.prototype.toFixed(k)` on an exact rational: the sign, then the
magnitude scaled by `10^k` and rounded to an integer with ties away from
zero, printed with a decimal point before the last `k` digits. -/
def toFixed (k : Nat) (q : ℚ) : String :=
  let sign := if q < 0 then "-" else ""
  let n := (⌊|q| * (10 : ℚ) ^ k + 1 / 2⌋).toNat
  sign ++ toString (n / 10 ^ k) ++ "." ++ padZeros (n % 10 ^ k) k

/-- Lines 193-198: `value = max(1, totalChildValue)` overridden by
`max(1, round(duration * 10))` only when a duration matched and is `> 0`. -/
def nodeValue (finalDuration : Option ℚ) (totalChildValue : ℤ) : ℤ :=
  let v0 := max 1 totalChildValue
  match finalDuration with
  | some d => if 0 < d then max 1 (jsRound (d * 10)) else v0
  | none => v0

/-- Lines 200-243: format the label, severity colors and tooltip from the
matched duration, and assemble the returned record. -/
def annotate (componentName : String) (finalDuration : Option ℚ) (value : ℤ)
    (children : Option (List FlameGraphNode)) : FlameGraphNode :=
  let tooltip0 := "Component: " ++ componentName
  match finalDuration with
  | some d =>
    let nameD :=
      if d = 0 then componentName ++ " (<0.1ms)"
      else componentName ++ " (" ++ toFixed 1 d ++ "ms)"
    let bg :=
      if d = 0 then "#22c55e"
      else if d < 1 / 2 then "#84cc16"
      else if d < 2 then "#eab308"
      else if d < 5 then "#f97316"
      else "#ef4444"
    let fg :=
      if d = 0 then "#ffffff"
      else if d < 1 / 2 then "#ffffff"
      else if d < 2 then "#000000"
      else "#ffffff"
    .mk nameD value children
      (some (tooltip0 ++ "\nRender time: " ++ toFixed 2 d ++ "ms"))
      (some bg) (some fg)
  | none =>
    .mk componentName value children
      (some (tooltip0 ++ "\nDid not rerender"))
      (some "#9ca3af") (some "#ffffff")

/-- Line 172: `node.children.map((childId) => buildNode(childId, snapshots))`
— left to right, threading the queue state through the builder `f` given for
the recursive call. -/
def runChildren (f : Nat → DurState → Option (FlameGraphNode × DurState)) :
    List Nat → DurState → Option (List FlameGraphNode × DurState)
  | [], st => some ([], st)
  | c :: cs, st =>
    match f c st with
    | none => none
    | some (n, st') =>
      match runChildren f cs st' with
      | none => none
      | some (ns, st'') => some (n :: ns, st'')

/-- One unfolding of `buildNode` (lines 151-244), with `rec` standing for the
recursive call and the two queue maps threaded explicitly instead of mutated
in place.  The source builds children only under `node.children.length > 0`;
running the empty child list yields the same `[]` and unchanged state, and
`children` is then set back to `undefined` (`none`). -/
def buildStep
    (rec : Nat → Snapshots → Option ℚ → DurState →
      Option (FlameGraphNode × DurState))
    (id : Nat) (snaps : Snapshots) (parentDuration : Option ℚ)
    (st : DurState) : Option (FlameGraphNode × DurState) :=
  match lookupSnap snaps id with
  | none => some (.mk "Unknown" 1 none none none none, st)
  | some node =>
    if node.type = 11 ∧ node.children.length = 1 then
      rec (node.children.headD 0) snaps parentDuration st
    else
      let componentName := canonName (resolveDisplayName node)
      match runChildren (fun c st => rec c snaps none st) node.children st with
      | none => none
      | some (built, st1) =>
        let children : Option (List FlameGraphNode) :=
          if node.children.length > 0 then some built else none
        let totalChildValue : ℤ := (built.map FlameGraphNode.value).sum
        let actual := shiftQueue st1.componentTotalDurations componentName
        let meas := shiftQueue st1.componentDurations componentName
        let finalDuration := actual.1 <|> meas.1
        some (annotate componentName finalDuration
            (nodeValue finalDuration totalChildValue) children,
          ⟨actual.2, meas.2⟩)

/-- `buildNode` with explicit fuel: the source recursion has no cycle
protection, so the embedding decrements fuel at every recursive call and
returns `none` when it runs out (i.e. when no recursion depth suffices,
the source diverges). -/
def buildFuel : Nat → Nat → Snapshots → Option ℚ → DurState →
    Option (FlameGraphNode × DurState)
  | 0 => fun _ _ _ _ => none
  | fuel + 1 => buildStep (buildFuel fuel)

/-- The child loop at a given fuel level. -/
def buildChildrenFuel (fuel : Nat) (cs : List Nat) (snaps : Snapshots)
    (st : DurState) : Option (List FlameGraphNode × DurState) :=
  runChildren (fun c st => buildFuel fuel c snaps none st) cs st

/-- `pat` occurs at the start of `l`. -/
def charsStartWith : List Char → List Char → Bool
  | _, [] => true
  | [], _ :: _ => false
  | a :: l, b :: p => a = b && charsStartWith l p

/-- `pat` occurs contiguously somewhere in `l`. -/
def charsContain : List Char → List Char → Bool
  | [], pat => pat.isEmpty
  | a :: t, pat => charsStartWith (a :: t) pat || charsContain t pat

/-- JS `String.prototype.includes`. -/
def strIncludes (s pat : String) : Bool := charsContain s.toList pat.toList

/-- Line 262 predicate: node exists, has a truthy `displayName`, and that
name contains `'Router'` or equals `'App'`. -/
def rootPred (n : SnapshotNode) : Bool :=
  match n.displayName with
  | some s => s ≠ "" && (strIncludes s "Router" || s == "App")
  | none => false

/-- Truthiness of `node.displayName`. -/
def hasName (n : SnapshotNode) : Bool :=
  match n.displayName with
  | some s => s ≠ ""
  | none => false

/-- Lines 255-276: pick the root id — the first id (in ascending table order)
matching `rootPred`, else the first id; then, if the chosen node has a falsy
`displayName`, the first id with a truthy one, else keep.  Returns `none` on
an empty table (line 256 `continue`). -/
def selectRootId (snaps : Snapshots) : Option Nat :=
  match snaps.map Prod.fst with
  | [] => none
  | first :: rest =>
    let ids := first :: rest
    let byPred := fun id =>
      match lookupSnap snaps id with
      | some n => rootPred n
      | none => false
    let byName := fun id =>
      match lookupSnap snaps id with
      | some n => hasName n
      | none => false
    let rootId0 :=
      match ids.find? byPred with
      | some id => id
      | none => first
    if byName rootId0 then some rootId0
    else
      match ids.find? byName with
      | some id => some id
      | none => some rootId0

/-- Lines 246-279: the per-root loop, threading the shared queue state across
roots; entries with an empty table contribute no tree. -/
def parseRoots (fuel : Nat) : List RootData → DurState →
    Option (List FlameGraphNode)
  | [], _ => some []
  | root :: rest, st =>
    let snaps := normalizeSnapshots root.snapshots
    match selectRootId snaps with
    | none => parseRoots fuel rest st
    | some rootId =>
      match buildFuel fuel rootId snaps none st with
      | none => none
      | some (tree, st') =>
        match parseRoots fuel rest st' with
        | none => none
        | some trees => some (tree :: trees)

/-- Lines 86-282: the whole transform, with fuel for the tree builder. -/
def parseProfilerForFlameGraph (fuel : Nat) (j : ProfilerJSON) :
    Option (List FlameGraphNode) :=
  parseRoots fuel j.dataForRoots
    ⟨buildComponentTotalDurations j, buildComponentDurations j⟩

/-- The graph of the partial tree builder the source denotes: some fuel
suffices. -/
def BuildsTo (id : Nat) (snaps : Snapshots) (pd : Option ℚ) (st : DurState)
    (r : FlameGraphNode × DurState) : Prop :=
  ∃ n, buildFuel n id snaps pd st = some r

/-- The source's `parseProfilerForFlameGraph` call terminates on `j`. -/
def ParseTerminates (j : ProfilerJSON) : Prop :=
  ∃ n out, parseProfilerForFlameGraph n j = some out

/-! ## Basic lemmas about the builder -/

lemma buildFuel_succ (n id : Nat) (snaps : Snapshots) (pd : Option ℚ)
    (st : DurState) :
    buildFuel (n + 1) id snaps pd st = buildStep (buildFuel n) id snaps pd st :=
  rfl

lemma buildFuel_zero (id : Nat) (snaps : Snapshots) (pd : Option ℚ)
    (st : DurState) : buildFuel 0 id snaps pd st = none :=
  rfl

lemma shiftQueue_fst (q : DurMap) (nm : String) :
    (shiftQueue q nm).1 = (q nm).head? := by
  cases h : q nm <;> simp [shiftQueue, h]

lemma shiftQueue_snd_self (q : DurMap) (nm : String) :
    (shiftQueue q nm).2 nm = (q nm).drop 1 := by
  cases h : q nm <;> simp [shiftQueue, h]

lemma shiftQueue_snd_other (q : DurMap) (nm n' : String) (hne : n' ≠ nm) :
    (shiftQueue q nm).2 n' = q n' := by
  cases h : q nm <;> simp [shiftQueue, h, hne]

lemma annotate_value (c : String) (fd : Option ℚ) (v : ℤ)
    (ch : Option (List FlameGraphNode)) : (annotate c fd v ch).value = v := by
  cases fd <;> rfl

/-! ## C10: missing ids yield the degenerate "Unknown" stub -/

/-- C10: for every id requested during tree construction but absent from the
snapshot table, the builder returns the degenerate node with name "Unknown",
value 1 and no children, leaves the queue state untouched, and does not fail
(lines 152-155). -/
theorem missing_id_yields_unknown_stub (n id : Nat) (snaps : Snapshots)
    (pd : Option ℚ) (st : DurState) (h : lookupSnap snaps id = none) :
    buildFuel (n + 1) id snaps pd st =
      some (.mk "Unknown" 1 none none none none, st) := by
  simp [buildFuel_succ, buildStep, h]

/-- Witness for C10 at a concrete input: id 5 is absent from the empty table. -/
theorem missing_id_yields_unknown_stub_witness :
    lookupSnap [] 5 = none ∧
    buildFuel 1 5 [] none ⟨emptyDM, emptyDM⟩ =
      some (.mk "Unknown" 1 none none none none, ⟨emptyDM, emptyDM⟩) :=
  ⟨rfl, missing_id_yields_unknown_stub 0 5 [] none ⟨emptyDM, emptyDM⟩ rfl⟩

/-! ## C7: fragment nodes with exactly one child are invisible -/

/-- C7: a snapshot node tagged as a fragment (`type === 11`) with exactly one
child builds to exactly what its single child builds to — same output node
and same final queue state (lines 160-162). -/
theorem fragment_unwraps_to_single_child (id c : Nat) (snaps : Snapshots)
    (node : SnapshotNode) (pd : Option ℚ) (st : DurState)
    (r : FlameGraphNode × DurState) (hlk : lookupSnap snaps id = some node)
    (ht : node.type = 11) (hc : node.children = [c]) :
    BuildsTo id snaps pd st r ↔ BuildsTo c snaps pd st r := by
  constructor
  · rintro ⟨n, hn⟩
    cases n with
    | zero => simp [buildFuel_zero] at hn
    | succ m =>
      refine ⟨m, ?_⟩
      simpa [buildFuel_succ, buildStep, hlk, ht, hc] using hn
  · rintro ⟨n, hn⟩
    exact ⟨n + 1, by simpa [buildFuel_succ, buildStep, hlk, ht, hc] using hn⟩

def w7Node : SnapshotNode := ⟨[2], none, 11⟩

def w7Snaps : Snapshots := [(1, w7Node), (2, ⟨[], some "Foo", 0⟩)]

/-- Witness for C7 at a concrete input: node 1 is a one-child fragment
wrapping node 2. -/
theorem fragment_unwraps_to_single_child_witness :
    lookupSnap w7Snaps 1 = some w7Node ∧ w7Node.type = 11 ∧
    w7Node.children = [2] ∧
    (BuildsTo 1 w7Snaps none ⟨emptyDM, emptyDM⟩
        (.mk "Foo" 1 none (some "Component: Foo\nDid not rerender")
          (some "#9ca3af") (some "#ffffff"), ⟨emptyDM, emptyDM⟩) ↔
      BuildsTo 2 w7Snaps none ⟨emptyDM, emptyDM⟩
        (.mk "Foo" 1 none (some "Component: Foo\nDid not rerender")
          (some "#9ca3af") (some "#ffffff"), ⟨emptyDM, emptyDM⟩)) :=
  ⟨rfl, rfl, rfl,
    fragment_unwraps_to_single_child 1 2 w7Snaps w7Node none ⟨emptyDM, emptyDM⟩
      _ rfl rfl rfl⟩

/-! ## C1: both queues are dequeued, not only the fiber one -/

def cx1Snaps : Snapshots := [(1, ⟨[], some "Foo", 0⟩)]

def cx1St : DurState :=
  ⟨fun n => if n = "Foo" then [1] else [], fun n => if n = "Foo" then [3] else []⟩

/-- Counterexample to C1: building the single "Foo" node while its
fiber-actual-duration queue is non-empty (`[1]`) nevertheless dequeues the
render-measure queue as well (`[3]` becomes `[]`), contradicting "the
render-measure queue for that name is left unchanged by this node". -/
theorem both_queues_dequeued_counterexample :
    cx1St.componentTotalDurations "Foo" = [1] ∧
    cx1St.componentDurations "Foo" = [3] ∧
    (buildFuel 1 1 cx1Snaps none cx1St).map
      (fun r => r.2.componentDurations "Foo") = some [] :=
  ⟨rfl, rfl, rfl⟩

/-- C1 as amended: for every node built on the non-fragment path, the
duration is the head of the fiber-actual-duration queue for the node's
canonical name when that queue is non-empty, falling back to the head of the
render-measure queue; but BOTH queues for that name are dequeued whenever
non-empty — the render-measure queue loses its head even when the fiber
queue was non-empty (lines 176-191). -/
theorem node_dequeues_both_queues (n id : Nat) (snaps : Snapshots)
    (node : SnapshotNode) (pd : Option ℚ) (st st1 : DurState)
    (built : List FlameGraphNode) (hlk : lookupSnap snaps id = some node)
    (hnf : ¬(node.type = 11 ∧ node.children.length = 1))
    (hcb : buildChildrenFuel n node.children snaps st = some (built, st1)) :
    ∃ st2 : DurState,
      buildFuel (n + 1) id snaps pd st =
        some (annotate (canonName (resolveDisplayName node))
          ((st1.componentTotalDurations (canonName (resolveDisplayName node))).head? <|>
            (st1.componentDurations (canonName (resolveDisplayName node))).head?)
          (nodeValue
            ((st1.componentTotalDurations (canonName (resolveDisplayName node))).head? <|>
              (st1.componentDurations (canonName (resolveDisplayName node))).head?)
            (built.map FlameGraphNode.value).sum)
          (if node.children.length > 0 then some built else none), st2) ∧
      st2.componentTotalDurations (canonName (resolveDisplayName node)) =
        (st1.componentTotalDurations (canonName (resolveDisplayName node))).drop 1 ∧
      st2.componentDurations (canonName (resolveDisplayName node)) =
        (st1.componentDurations (canonName (resolveDisplayName node))).drop 1 := by
  refine ⟨⟨(shiftQueue st1.componentTotalDurations
      (canonName (resolveDisplayName node))).2,
    (shiftQueue st1.componentDurations
      (canonName (resolveDisplayName node))).2⟩, ?_, ?_, ?_⟩
  · have hrc : runChildren (fun c st => buildFuel n c snaps none st)
        node.children st = some (built, st1) := hcb
    rw [buildFuel_succ]
    unfold buildStep
    rw [hlk]
    dsimp only
    rw [if_neg hnf, hrc]
    simp [shiftQueue_fst]
  · exact shiftQueue_snd_self _ _
  · exact shiftQueue_snd_self _ _

/-- Witness for C1-as-amended at a concrete input: the single "Foo" node of
`cx1Snaps` with both queues non-empty. -/
theorem node_dequeues_both_queues_witness :
    lookupSnap cx1Snaps 1 = some ⟨[], some "Foo", 0⟩ ∧
    ¬((⟨[], some "Foo", 0⟩ : SnapshotNode).type = 11 ∧
      (⟨[], some "Foo", 0⟩ : SnapshotNode).children.length = 1) ∧
    buildChildrenFuel 0 (⟨[], some "Foo", 0⟩ : SnapshotNode).children cx1Snaps
      cx1St = some ([], cx1St) ∧
    (∃ st2 : DurState,
      buildFuel 1 1 cx1Snaps none cx1St =
        some (annotate (canonName (resolveDisplayName ⟨[], some "Foo", 0⟩))
          ((cx1St.componentTotalDurations
              (canonName (resolveDisplayName ⟨[], some "Foo", 0⟩))).head? <|>
            (cx1St.componentDurations
              (canonName (resolveDisplayName ⟨[], some "Foo", 0⟩))).head?)
          (nodeValue
            ((cx1St.componentTotalDurations
                (canonName (resolveDisplayName ⟨[], some "Foo", 0⟩))).head? <|>
              (cx1St.componentDurations
                (canonName (resolveDisplayName ⟨[], some "Foo", 0⟩))).head?)
            (([] : List FlameGraphNode).map FlameGraphNode.value).sum)
          (if (⟨[], some "Foo", 0⟩ : SnapshotNode).children.length > 0
            then some [] else none), st2) ∧
      st2.componentTotalDurations
          (canonName (resolveDisplayName ⟨[], some "Foo", 0⟩)) =
        (cx1St.componentTotalDurations
          (canonName (resolveDisplayName ⟨[], some "Foo", 0⟩))).drop 1 ∧
      st2.componentDurations
          (canonName (resolveDisplayName ⟨[], some "Foo", 0⟩)) =
        (cx1St.componentDurations
          (canonName (resolveDisplayName ⟨[], some "Foo", 0⟩))).drop 1) :=
  ⟨rfl, by decide, rfl,
    node_dequeues_both_queues 0 1 cx1Snaps ⟨[], some "Foo", 0⟩ none cx1St cx1St
      [] rfl (by decide) rfl⟩

/-! ## C2: the duration-scaled value applies only to positive durations -/

def cx2Snaps : Snapshots :=
  [(1, ⟨[2, 3], some "Foo", 0⟩), (2, ⟨[], some "Bar", 0⟩),
    (3, ⟨[], some "Baz", 0⟩)]

def cx2St : DurState := ⟨emptyDM, fun n => if n = "Foo" then [0] else []⟩

/-- Counterexample to C2: the "Foo" node matches the recorded duration 0 and
has two children of value 1 each; the code gives it value 2 (the child sum),
not the claimed `max 1 (round (0 * 10)) = 1`. -/
theorem zero_duration_value_counterexample :
    cx2St.componentDurations "Foo" = [0] ∧
    (buildFuel 2 1 cx2Snaps none cx2St).map (fun r => r.1.value) = some 2 ∧
    max 1 (jsRound ((0 : ℚ) * 10)) = 1 := by
  refine ⟨rfl, rfl, ?_⟩
  norm_num [jsRound]

/-- C2 as amended: for every node built on the non-fragment path, if the
matched duration is strictly positive the value is
`max 1 (round (duration * 10))`; if no duration matched, or the matched
duration is 0 (or negative), the value is the larger of 1 and the sum of the
children's values (lines 193-198). -/
theorem node_value_formula (n id : Nat) (snaps : Snapshots)
    (node : SnapshotNode) (pd : Option ℚ) (st st1 : DurState)
    (built : List FlameGraphNode) (hlk : lookupSnap snaps id = some node)
    (hnf : ¬(node.type = 11 ∧ node.children.length = 1))
    (hcb : buildChildrenFuel n node.children snaps st = some (built, st1)) :
    ∃ (nd : FlameGraphNode) (st2 : DurState),
      buildFuel (n + 1) id snaps pd st = some (nd, st2) ∧
      nd.value =
        match (st1.componentTotalDurations
            (canonName (resolveDisplayName node))).head? <|>
          (st1.componentDurations
            (canonName (resolveDisplayName node))).head? with
        | some d =>
          if 0 < d then max 1 (jsRound (d * 10))
          else max 1 (built.map FlameGraphNode.value).sum
        | none => max 1 (built.map FlameGraphNode.value).sum := by
  obtain ⟨st2, hb, -, -⟩ :=
    node_dequeues_both_queues n id snaps node pd st st1 built hlk hnf hcb
  refine ⟨_, st2, hb, ?_⟩
  rw [annotate_value]
  cases hfd : (st1.componentTotalDurations
      (canonName (resolveDisplayName node))).head? <|>
    (st1.componentDurations (canonName (resolveDisplayName node))).head? with
  | none => simp [nodeValue]
  | some d => simp only [nodeValue]

/-- Witness for C2-as-amended at a concrete input: the "Foo" node of
`cx2Snaps` with matched duration 0 and child sum 2. -/
theorem node_value_formula_witness :
    lookupSnap cx2Snaps 1 = some ⟨[2, 3], some "Foo", 0⟩ ∧
    ¬((⟨[2, 3], some "Foo", 0⟩ : SnapshotNode).type = 11 ∧
      (⟨[2, 3], some "Foo", 0⟩ : SnapshotNode).children.length = 1) ∧
    buildChildrenFuel 1 (⟨[2, 3], some "Foo", 0⟩ : SnapshotNode).children
        cx2Snaps cx2St =
      some ([.mk "Bar" 1 none (some "Component: Bar\nDid not rerender")
          (some "#9ca3af") (some "#ffffff"),
        .mk "Baz" 1 none (some "Component: Baz\nDid not rerender")
          (some "#9ca3af") (some "#ffffff")], cx2St) ∧
    (∃ (nd : FlameGraphNode) (st2 : DurState),
      buildFuel 2 1 cx2Snaps none cx2St = some (nd, st2) ∧
      nd.value =
        match (cx2St.componentTotalDurations
            (canonName (resolveDisplayName ⟨[2, 3], some "Foo", 0⟩))).head? <|>
          (cx2St.componentDurations
            (canonName (resolveDisplayName ⟨[2, 3], some "Foo", 0⟩))).head? with
        | some d =>
          if 0 < d then max 1 (jsRound (d * 10))
          else max 1 (([.mk "Bar" 1 none
              (some "Component: Bar\nDid not rerender")
              (some "#9ca3af") (some "#ffffff"),
            .mk "Baz" 1 none (some "Component: Baz\nDid not rerender")
              (some "#9ca3af") (some "#ffffff")].map FlameGraphNode.value)).sum
        | none => max 1 (([.mk "Bar" 1 none
              (some "Component: Bar\nDid not rerender")
              (some "#9ca3af") (some "#ffffff"),
            .mk "Baz" 1 none (some "Component: Baz\nDid not rerender")
              (some "#9ca3af") (some "#ffffff")].map FlameGraphNode.value)).sum) :=
  ⟨rfl, by decide, rfl,
    node_value_formula 1 1 cx2Snaps ⟨[2, 3], some "Foo", 0⟩ none cx2St cx2St _
      rfl (by decide) rfl⟩

/-! ## C3: termination fails on cyclic tables, holds on ranked ones -/

def cySnaps : Snapshots := [(1, ⟨[1], some "App", 0⟩)]

def cyJson : ProfilerJSON := ⟨[⟨some [], .obj cySnaps⟩], some []⟩

lemma cy_build_none : ∀ (n : Nat) (st : DurState) (pd : Option ℚ),
    buildFuel n 1 cySnaps pd st = none := by
  intro n
  induction n with
  | zero => intro st pd; rfl
  | succ k ih =>
    intro st pd
    rw [buildFuel_succ]
    unfold buildStep
    have hlk : lookupSnap cySnaps 1 = some ⟨[1], some "App", 0⟩ := rfl
    rw [hlk]
    dsimp only
    rw [if_neg (by decide)]
    simp [runChildren, ih]

/-- Counterexample to C3: on the snapshot table whose single node lists
itself as its own child, `parseProfilerForFlameGraph` does not terminate (no
recursion depth produces a result: the source recursion has no cycle
protection and diverges). -/
theorem cyclic_table_diverges : ¬ ParseTerminates cyJson := by
  rintro ⟨n, out, h⟩
  have hb := cy_build_none n
    ⟨buildComponentTotalDurations cyJson, buildComponentDurations cyJson⟩ none
  have hsel : selectRootId cySnaps = some 1 := rfl
  simp [parseProfilerForFlameGraph, parseRoots, normalizeSnapshots, hsel, hb]
    at h

lemma lookupSnap_mem {snaps : Snapshots} {id : Nat} {node : SnapshotNode}
    (h : lookupSnap snaps id = some node) : (id, node) ∈ snaps := by
  unfold lookupSnap at h
  cases hf : List.find? (fun p => p.1 == id) snaps with
  | none => rw [hf] at h; exact absurd h (by simp)
  | some p =>
    rw [hf] at h
    have hp := List.find?_some hf
    have hmem := List.mem_of_find?_eq_some hf
    obtain ⟨p1, p2⟩ := p
    simp only [Option.some.injEq] at h
    simp only [beq_iff_eq] at hp
    rw [← h, ← hp]
    exact hmem

lemma build_isSome_of_rank (snaps : Snapshots) (f : Nat → Nat)
    (hA : ∀ p ∈ snaps, ∀ c ∈ p.2.children, f c < f p.1) :
    ∀ k : Nat,
      (∀ id pd st, f id < k → (buildFuel k id snaps pd st).isSome = true) ∧
      (∀ (cs : List Nat) st, (∀ c ∈ cs, f c < k) →
        (buildChildrenFuel k cs snaps st).isSome = true) := by
  intro k
  induction k with
  | zero =>
    constructor
    · intro id pd st h
      exact absurd h (Nat.not_lt_zero _)
    · intro cs st h
      cases cs with
      | nil => rfl
      | cons c cs' =>
        exact absurd (h c (List.mem_cons_self c cs')) (Nat.not_lt_zero _)
  | succ k ih =>
    have main : ∀ id pd st, f id < k + 1 →
        (buildFuel (k + 1) id snaps pd st).isSome = true := by
      intro id pd st hid
      rw [buildFuel_succ]
      unfold buildStep
      cases hlk : lookupSnap snaps id with
      | none => simp
      | some node =>
        have hmem := lookupSnap_mem hlk
        have hch : ∀ c ∈ node.children, f c < f id := hA _ hmem
        dsimp only
        by_cases hfr : node.type = 11 ∧ node.children.length = 1
        · rw [if_pos hfr]
          have hc : node.children.headD 0 ∈ node.children := by
            cases hcl : node.children with
            | nil => rw [hcl] at hfr; simp at hfr
            | cons a t => simp [hcl]
          have hlt : f (node.children.headD 0) < k := by
            have := hch _ hc
            omega
          exact ih.1 _ pd st hlt
        · rw [if_neg hfr]
          have hcs : (buildChildrenFuel k node.children snaps st).isSome = true :=
            ih.2 _ st (fun c hc => by have := hch c hc; omega)
          unfold buildChildrenFuel at hcs
          cases hrc : runChildren (fun c st => buildFuel k c snaps none st)
              node.children st with
          | none => rw [hrc] at hcs; simp at hcs
          | some r => obtain ⟨bs, st1⟩ := r; simp
    refine ⟨main, ?_⟩
    intro cs
    induction cs with
    | nil => intro st h; rfl
    | cons c cs' ihc =>
      intro st h
      have h1 := main c none st (h c (List.mem_cons_self c cs'))
      cases hb : buildFuel (k + 1) c snaps none st with
      | none => rw [hb] at h1; simp at h1
      | some r =>
        obtain ⟨nd, st'⟩ := r
        have h2 := ihc st' (fun x hx => h x (List.mem_cons_of_mem c hx))
        unfold buildChildrenFuel runChildren
        rw [hb]
        unfold buildChildrenFuel at h2
        cases hpr : runChildren (fun c st => buildFuel (k + 1) c snaps none st)
            cs' st' with
        | none => rw [hpr] at h2; simp at h2
        | some r2 => obtain ⟨ns, st''⟩ := r2; simp only [hpr]; simp

lemma selectRootId_mem (snaps : Snapshots) (r : Nat)
    (h : selectRootId snaps = some r) : r ∈ snaps.map Prod.fst := by
  unfold selectRootId at h
  cases hm : snaps.map Prod.fst with
  | nil => rw [hm] at h; exact absurd h (by simp)
  | cons first rest =>
    rw [hm] at h
    dsimp only at h
    split at h
    · obtain rfl := Option.some.inj h
      split
      · next hfp => exact List.mem_of_find?_eq_some hfp
      · exact List.mem_cons_self _ _
    · split at h
      · next hfn =>
        obtain rfl := Option.some.inj h
        exact List.mem_of_find?_eq_some hfn
      · obtain rfl := Option.some.inj h
        split
        · next hfp => exact List.mem_of_find?_eq_some hfp
        · exact List.mem_cons_self _ _

lemma parseRoots_isSome (N : Nat) (f : Nat → Nat) :
    ∀ (roots : List RootData) (st : DurState),
      (∀ root ∈ roots, ∀ p ∈ normalizeSnapshots root.snapshots,
        (∀ c ∈ p.2.children, f c < f p.1) ∧ f p.1 < N) →
      (parseRoots N roots st).isSome = true := by
  intro roots
  induction roots with
  | nil => intro st h; rfl
  | cons root rest ih =>
    intro st h
    unfold parseRoots
    dsimp only
    cases hsel : selectRootId (normalizeSnapshots root.snapshots) with
    | none => exact ih st (fun r hr => h r (List.mem_cons_of_mem root hr))
    | some rootId =>
      have hrm := selectRootId_mem _ _ hsel
      obtain ⟨p, hp, hpe⟩ := List.mem_map.mp hrm
      have hroot := h root (List.mem_cons_self root rest)
      have hrank : f rootId < N := by rw [← hpe]; exact (hroot p hp).2
      have hb := (build_isSome_of_rank (normalizeSnapshots root.snapshots) f
        (fun q hq => (hroot q hq).1) N).1 rootId none st hrank
      cases hbb : buildFuel N rootId (normalizeSnapshots root.snapshots)
          none st with
      | none => rw [hbb] at hb; simp at hb
      | some r =>
        obtain ⟨tree, st'⟩ := r
        have ht := ih st' (fun r hr => h r (List.mem_cons_of_mem root hr))
        cases hpr : parseRoots N rest st' with
        | none => rw [hpr] at ht; simp at ht
        | some ts => simp only [hbb, hpr]; simp

/-- C3 as amended: the transform terminates on every input whose snapshot
tables admit a ranking function decreasing from parent to child (i.e. whose
child-id references are acyclic), with fuel bounding all ranks; on a cyclic
table (see the counterexample) it diverges. -/
theorem acyclic_parse_terminates (j : ProfilerJSON) (f : Nat → Nat) (N : Nat)
    (hf : ∀ root ∈ j.dataForRoots, ∀ p ∈ normalizeSnapshots root.snapshots,
      (∀ c ∈ p.2.children, f c < f p.1) ∧ f p.1 < N) :
    ∃ out, parseProfilerForFlameGraph N j = some out := by
  have hs := parseRoots_isSome N f j.dataForRoots
    ⟨buildComponentTotalDurations j, buildComponentDurations j⟩ hf
  have : parseProfilerForFlameGraph N j = parseRoots N j.dataForRoots
      ⟨buildComponentTotalDurations j, buildComponentDurations j⟩ := rfl
  rw [this]
  exact Option.isSome_iff_exists.mp hs

def w3Snaps : Snapshots := [(1, ⟨[], some "Leaf", 0⟩), (2, ⟨[1], some "App", 0⟩)]

def w3Json : ProfilerJSON := ⟨[⟨some [], .obj w3Snaps⟩], some []⟩

/-- Witness for C3-as-amended at a concrete input: a two-node acyclic table
ranked by the identity function, with fuel 3. -/
theorem acyclic_parse_terminates_witness :
    (∀ root ∈ w3Json.dataForRoots, ∀ p ∈ normalizeSnapshots root.snapshots,
      (∀ c ∈ p.2.children, (fun n => n) c < (fun n => n) p.1) ∧
        (fun n => n) p.1 < 3) ∧
    ∃ out, parseProfilerForFlameGraph 3 w3Json = some out :=
  ⟨by decide, acyclic_parse_terminates w3Json (fun n => n) 3 (by decide)⟩

/-! ## C4: every output node is well-formed at every depth -/

/-- The shape invariant the visualization layer relies on, at every depth:
non-empty name, value ≥ 1, and `children` either absent or a non-empty list
of equally well-formed nodes. -/
inductive GoodTree : FlameGraphNode → Prop where
  | leaf : ∀ (nm : String) (v : ℤ) (t b c : Option String),
      nm ≠ "" → 1 ≤ v → GoodTree (.mk nm v none t b c)
  | branch : ∀ (nm : String) (v : ℤ) (l : List FlameGraphNode)
      (t b c : Option String), nm ≠ "" → 1 ≤ v → l ≠ [] →
      (∀ x ∈ l, GoodTree x) → GoodTree (.mk nm v (some l) t b c)

lemma strAppend_ne_empty (a b : String) (hb : b ≠ "") : a ++ b ≠ "" := by
  intro h
  apply hb
  have hd := congrArg String.data h
  rw [String.data_append] at hd
  have hbd : b.data = [] := (List.append_eq_nil.mp hd).2
  exact String.ext (by simpa using hbd)

lemma resolveDisplayName_ne_empty (n : SnapshotNode) :
    resolveDisplayName n ≠ "" := by
  unfold resolveDisplayName
  rcases hd : n.displayName with _ | s
  · dsimp only
    split <;> decide
  · dsimp only
    by_cases hs : s = ""
    · rw [if_pos hs]; split <;> decide
    · rw [if_neg hs]; exact hs

lemma canonName_ne_empty (s : String) (hs : s ≠ "") : canonName s ≠ "" := by
  unfold canonName parseMemo
  split
  · dsimp only
    exact strAppend_ne_empty _ _ (by decide)
  · dsimp only
    exact hs

lemma nodeValue_pos (fd : Option ℚ) (t : ℤ) : 1 ≤ nodeValue fd t := by
  cases fd with
  | none => exact le_max_left _ _
  | some d =>
    unfold nodeValue
    dsimp only
    split <;> exact le_max_left _ _

lemma annotate_good (c : String) (fd : Option ℚ) (v : ℤ)
    (ch : Option (List FlameGraphNode)) (hc : c ≠ "") (hv : 1 ≤ v)
    (hch : ∀ l, ch = some l → l ≠ [] ∧ ∀ x ∈ l, GoodTree x) :
    GoodTree (annotate c fd v ch) := by
  cases fd with
  | none =>
    cases ch with
    | none => exact .leaf _ _ _ _ _ hc hv
    | some l =>
      obtain ⟨hne, hall⟩ := hch l rfl
      exact .branch _ _ _ _ _ _ hc hv hne hall
  | some d =>
    unfold annotate
    dsimp only
    have hname : (if d = 0 then c ++ " (<0.1ms)"
        else c ++ " (" ++ toFixed 1 d ++ "ms)") ≠ "" := by
      split
      · exact strAppend_ne_empty _ _ (by decide)
      · exact strAppend_ne_empty _ _ (by decide)
    cases ch with
    | none => exact .leaf _ _ _ _ _ hname hv
    | some l =>
      obtain ⟨hne, hall⟩ := hch l rfl
      exact .branch _ _ _ _ _ _ hname hv hne hall

lemma runChildren_length (f : Nat → DurState →
    Option (FlameGraphNode × DurState)) :
    ∀ (cs : List Nat) (st : DurState) (r : List FlameGraphNode × DurState),
      runChildren f cs st = some r → r.1.length = cs.length := by
  intro cs
  induction cs with
  | nil =>
    intro st r h
    obtain rfl := Option.some.inj h
    rfl
  | cons c cs' ih =>
    intro st r h
    rw [runChildren] at h
    cases hf : f c st with
    | none => rw [hf] at h; exact absurd h (by simp)
    | some p =>
      rw [hf] at h
      obtain ⟨n, st'⟩ := p
      dsimp only at h
      cases hrc : runChildren f cs' st' with
      | none => rw [hrc] at h; exact absurd h (by simp)
      | some r2 =>
        rw [hrc] at h
        obtain ⟨ns, st''⟩ := r2
        obtain rfl := Option.some.inj h
        simp [ih st' (ns, st'') hrc]

lemma build_good : ∀ n : Nat,
    (∀ (id : Nat) (snaps : Snapshots) (pd : Option ℚ) (st : DurState)
      (r : FlameGraphNode × DurState),
      buildFuel n id snaps pd st = some r → GoodTree r.1) ∧
    (∀ (cs : List Nat) (snaps : Snapshots) (st : DurState)
      (r : List FlameGraphNode × DurState),
      buildChildrenFuel n cs snaps st = some r → ∀ x ∈ r.1, GoodTree x) := by
  intro n
  induction n with
  | zero =>
    constructor
    · intro id snaps pd st r h
      exact absurd h (by simp [buildFuel_zero])
    · intro cs snaps st r h
      cases cs with
      | nil =>
        obtain rfl := Option.some.inj h
        intro x hx
        exact absurd hx (by simp)
      | cons c cs' =>
        unfold buildChildrenFuel runChildren at h
        rw [buildFuel_zero] at h
        exact absurd h (by simp)
  | succ n ih =>
    have main : ∀ (id : Nat) (snaps : Snapshots) (pd : Option ℚ)
        (st : DurState) (r : FlameGraphNode × DurState),
        buildFuel (n + 1) id snaps pd st = some r → GoodTree r.1 := by
      intro id snaps pd st r h
      rw [buildFuel_succ] at h
      unfold buildStep at h
      cases hlk : lookupSnap snaps id with
      | none =>
        rw [hlk] at h
        obtain rfl := Option.some.inj h
        exact .leaf _ _ _ _ _ (by decide) le_rfl
      | some node =>
        rw [hlk] at h
        dsimp only at h
        by_cases hfr : node.type = 11 ∧ node.children.length = 1
        · rw [if_pos hfr] at h
          exact ih.1 _ _ _ _ _ h
        · rw [if_neg hfr] at h
          cases hrc : runChildren (fun c st => buildFuel n c snaps none st)
              node.children st with
          | none => rw [hrc] at h; exact absurd h (by simp)
          | some p =>
            rw [hrc] at h
            obtain ⟨built, st1⟩ := p
            obtain rfl := Option.some.inj h
            refine annotate_good _ _ _ _
              (canonName_ne_empty _ (resolveDisplayName_ne_empty node))
              (nodeValue_pos _ _) ?_
            intro l hl
            split at hl
            · next hlen =>
              obtain rfl := Option.some.inj hl
              have hlb : built.length = node.children.length :=
                runChildren_length _ node.children st (built, st1) hrc
              constructor
              · intro hnil
                rw [hnil] at hlb
                simp at hlb
                omega
              · exact ih.2 node.children snaps st (built, st1) hrc
            · exact absurd hl (by simp)
    refine ⟨main, ?_⟩
    intro cs
    induction cs with
    | nil =>
      intro snaps st r h
      obtain rfl := Option.some.inj h
      intro x hx
      exact absurd hx (by simp)
    | cons c cs' ihc =>
      intro snaps st r h
      unfold buildChildrenFuel runChildren at h
      cases hb : buildFuel (n + 1) c snaps none st with
      | none => rw [hb] at h; exact absurd h (by simp)
      | some p =>
        rw [hb] at h
        obtain ⟨nd, st'⟩ := p
        dsimp only at h
        cases hrc : runChildren (fun c st => buildFuel (n + 1) c snaps none st)
            cs' st' with
        | none => rw [hrc] at h; exact absurd h (by simp)
        | some r2 =>
          rw [hrc] at h
          obtain ⟨ns, st''⟩ := r2
          obtain rfl := Option.some.inj h
          intro x hx
          rcases List.mem_cons.mp hx with rfl | hx'
          · exact main c snaps none st (x, st') hb
          · exact ihc snaps st' (ns, st'') hrc x hx'

lemma parseRoots_good (N : Nat) :
    ∀ (roots : List RootData) (st : DurState) (out : List FlameGraphNode),
      parseRoots N roots st = some out → ∀ t ∈ out, GoodTree t := by
  intro roots
  induction roots with
  | nil =>
    intro st out h
    obtain rfl := Option.some.inj h
    intro t ht
    exact absurd ht (by simp)
  | cons root rest ih =>
    intro st out h
    unfold parseRoots at h
    dsimp only at h
    cases hsel : selectRootId (normalizeSnapshots root.snapshots) with
    | none =>
      rw [hsel] at h
      exact ih st out h
    | some rootId =>
      rw [hsel] at h
      dsimp only at h
      cases hb : buildFuel N rootId (normalizeSnapshots root.snapshots)
          none st with
      | none => rw [hb] at h; exact absurd h (by simp)
      | some p =>
        rw [hb] at h
        obtain ⟨tree, st'⟩ := p
        dsimp only at h
        cases hpr : parseRoots N rest st' with
        | none => rw [hpr] at h; exact absurd h (by simp)
        | some ts =>
          rw [hpr] at h
          obtain rfl := Option.some.inj h
          intro t ht
          rcases List.mem_cons.mp ht with rfl | ht'
          · exact (build_good N).1 rootId _ none st (t, st') hb
          · exact ih st' ts hpr t ht'

/-- C4: every `FlameGraphNode` in every output tree of the transform, at
every depth, has value ≥ 1, a non-empty name, and `children` either absent
or non-empty. -/
theorem parse_output_invariants (n : Nat) (j : ProfilerJSON)
    (out : List FlameGraphNode)
    (h : parseProfilerForFlameGraph n j = some out) : ∀ t ∈ out, GoodTree t :=
  parseRoots_good n j.dataForRoots _ out h

/-- Witness for C4 at a concrete input: the two-node table of `w3Json`
produces one "App" tree with one "Leaf" child. -/
theorem parse_output_invariants_witness :
    parseProfilerForFlameGraph 3 w3Json =
      some [.mk "App" 1
        (some [.mk "Leaf" 1 none (some "Component: Leaf\nDid not rerender")
          (some "#9ca3af") (some "#ffffff")])
        (some "Component: App\nDid not rerender")
        (some "#9ca3af") (some "#ffffff")] ∧
    (∀ t ∈ [FlameGraphNode.mk "App" 1
        (some [.mk "Leaf" 1 none (some "Component: Leaf\nDid not rerender")
          (some "#9ca3af") (some "#ffffff")])
        (some "Component: App\nDid not rerender")
        (some "#9ca3af") (some "#ffffff")], GoodTree t) :=
  ⟨rfl, parse_output_invariants 3 w3Json _ rfl⟩

/-! ## C9: root selection prefers "App"; empty tables yield no tree -/

/-- C9: in a two-node table holding an "App" node and a "Header" node, the
selected root is the "App" node whatever the two ids are (the table being in
ascending-id iteration order either way); an empty table selects no root;
and a root entry whose snapshot collection normalizes to the empty table
contributes no tree to the output. -/
theorem root_selection_app_and_empty (na nh : SnapshotNode)
    (ha : na.displayName = some "App") (hh : nh.displayName = some "Header")
    (i j : Nat) (hij : i ≠ j) (rep : SnapshotsInput)
    (hrep : normalizeSnapshots rep = []) (cd : Option (List Commit))
    (tl : Option (List Timeline)) (n : Nat) :
    selectRootId (if i < j then [(i, na), (j, nh)] else [(j, nh), (i, na)]) =
      some i ∧
    selectRootId [] = none ∧
    parseProfilerForFlameGraph n ⟨[⟨cd, rep⟩], tl⟩ = some [] := by
  refine ⟨?_, rfl, ?_⟩
  · have hpa : rootPred na = true := by
      unfold rootPred
      rw [ha]
      decide
    have hph : rootPred nh = false := by
      unfold rootPred
      rw [hh]
      decide
    have hna : hasName na = true := by
      unfold hasName
      rw [ha]
      decide
    by_cases hlt : i < j
    · rw [if_pos hlt]
      have hii : ((i, na).1 == i) = true := by simp
      unfold selectRootId
      simp only [List.map_cons, List.map_nil]
      rw [List.find?_cons_of_pos _ (by simp [lookupSnap, hpa])]
      simp [lookupSnap, hna]
    · rw [if_neg hlt]
      have hji : j ≠ i := fun hhh => hij hhh.symm
      unfold selectRootId
      simp only [List.map_cons, List.map_nil]
      rw [List.find?_cons_of_neg _ (by simp [lookupSnap, hph])]
      rw [List.find?_cons_of_pos _ (by simp [lookupSnap, hji, hpa])]
      simp [lookupSnap, hji, hna]
  · have : parseProfilerForFlameGraph n ⟨[⟨cd, rep⟩], tl⟩ =
        parseRoots n [⟨cd, rep⟩]
          ⟨buildComponentTotalDurations ⟨[⟨cd, rep⟩], tl⟩,
            buildComponentDurations ⟨[⟨cd, rep⟩], tl⟩⟩ := rfl
    rw [this]
    unfold parseRoots
    dsimp only
    rw [hrep]
    rfl

/-- Witness for C9 at a concrete input: Header has the smaller id (so it is
iterated first) and App is still selected; the empty capture is given in
array form. -/
theorem root_selection_app_and_empty_witness :
    (⟨[], some "App", 0⟩ : SnapshotNode).displayName = some "App" ∧
    (⟨[], some "Header", 0⟩ : SnapshotNode).displayName = some "Header" ∧
    (2 : Nat) ≠ 1 ∧
    normalizeSnapshots (.arr []) = [] ∧
    (selectRootId (if 2 < 1 then [(2, ⟨[], some "App", 0⟩), (1, ⟨[], some "Header", 0⟩)]
        else [(1, ⟨[], some "Header", 0⟩), (2, ⟨[], some "App", 0⟩)]) = some 2 ∧
      selectRootId [] = none ∧
      parseProfilerForFlameGraph 1 ⟨[⟨none, .arr []⟩], none⟩ = some []) :=
  ⟨rfl, rfl, by decide, rfl,
    root_selection_app_and_empty ⟨[], some "App", 0⟩ ⟨[], some "Header", 0⟩
      rfl rfl 2 1 (by decide) (.arr []) rfl none none 1⟩

/-! ## C6: array-of-pairs and id-keyed object encodings are interchangeable -/

lemma objInsert_mem (m : List (Nat × SnapshotNode)) (k : Nat)
    (v : SnapshotNode) (p : Nat × SnapshotNode) (hp : p ∈ objInsert m k v) :
    p = (k, v) ∨ p ∈ m := by
  induction m with
  | nil =>
    rw [objInsert] at hp
    exact Or.inl (List.mem_singleton.mp hp)
  | cons q t ih =>
    obtain ⟨k', v'⟩ := q
    rw [objInsert] at hp
    split at hp
    · rcases List.mem_cons.mp hp with rfl | hp2
      · exact Or.inl rfl
      · exact Or.inr hp2
    · split at hp
      · rcases List.mem_cons.mp hp with rfl | hp2
        · exact Or.inl rfl
        · exact Or.inr (List.mem_cons_of_mem _ hp2)
      · rcases List.mem_cons.mp hp with rfl | hp2
        · exact Or.inr (List.mem_cons_self _ _)
        · rcases ih hp2 with h | h
          · exact Or.inl h
          · exact Or.inr (List.mem_cons_of_mem _ h)

lemma objInsert_pairwise (m : List (Nat × SnapshotNode)) (k : Nat)
    (v : SnapshotNode) (hm : m.Pairwise (fun a b => a.1 < b.1)) :
    (objInsert m k v).Pairwise (fun a b => a.1 < b.1) := by
  induction m with
  | nil => simp [objInsert]
  | cons q t ih =>
    obtain ⟨k', v'⟩ := q
    rw [List.pairwise_cons] at hm
    obtain ⟨hq, ht⟩ := hm
    rw [objInsert]
    split
    · next h1 =>
      rw [List.pairwise_cons]
      constructor
      · intro p hp
        rcases List.mem_cons.mp hp with rfl | hp2
        · exact h1
        · exact lt_trans h1 (hq p hp2)
      · exact List.pairwise_cons.mpr ⟨hq, ht⟩
    · split
      · next h1 h2 =>
        rw [List.pairwise_cons]
        refine ⟨fun p hp => ?_, ht⟩
        have := hq p hp
        omega
      · next h1 h2 =>
        have hk : k' < k := by omega
        rw [List.pairwise_cons]
        constructor
        · intro p hp
          rcases objInsert_mem t k v p hp with rfl | hp2
          · exact hk
          · exact hq p hp2
        · exact ih ht

lemma foldl_objInsert_pairwise (ps : List (Nat × SnapshotNode)) :
    ∀ acc : List (Nat × SnapshotNode), acc.Pairwise (fun a b => a.1 < b.1) →
      (ps.foldl (fun m p => objInsert m p.1 p.2) acc).Pairwise
        (fun a b => a.1 < b.1) := by
  induction ps with
  | nil => intro acc h; exact h
  | cons p t ih => intro acc h; exact ih _ (objInsert_pairwise _ _ _ h)

lemma fromEntries_pairwise (ps : List (Nat × SnapshotNode)) :
    (fromEntries ps).Pairwise (fun a b => a.1 < b.1) :=
  foldl_objInsert_pairwise ps [] (by simp)

lemma lookupSnap_eq_none (l : Snapshots) (id : Nat)
    (h : ∀ p ∈ l, p.1 ≠ id) : lookupSnap l id = none := by
  unfold lookupSnap
  cases hf : l.find? (fun p => p.1 == id) with
  | none => rfl
  | some p =>
    have hp := List.find?_some hf
    have hmem := List.mem_of_find?_eq_some hf
    simp only [beq_iff_eq] at hp
    exact absurd hp (h p hmem)

lemma lookupSnap_cons_self (k : Nat) (v : SnapshotNode) (t : Snapshots)
    (id : Nat) (h : k = id) : lookupSnap ((k, v) :: t) id = some v := by
  unfold lookupSnap
  rw [List.find?_cons_of_pos _ (by simp [h])]

lemma lookupSnap_cons_ne (k : Nat) (v : SnapshotNode) (t : Snapshots)
    (id : Nat) (h : k ≠ id) : lookupSnap ((k, v) :: t) id = lookupSnap t id := by
  unfold lookupSnap
  rw [List.find?_cons_of_neg _ (by simp [h])]

/-- Two tables in canonical JS-object form (strictly ascending ids) with the
same lookup behaviour are equal. -/
lemma sorted_lookup_ext : ∀ l1 l2 : Snapshots,
    l1.Pairwise (fun a b => a.1 < b.1) → l2.Pairwise (fun a b => a.1 < b.1) →
    (∀ id, lookupSnap l1 id = lookupSnap l2 id) → l1 = l2 := by
  intro l1
  induction l1 with
  | nil =>
    intro l2 h1 h2 hl
    cases l2 with
    | nil => rfl
    | cons q t =>
      exfalso
      have hq := hl q.1
      rw [lookupSnap_eq_none [] q.1 (by simp)] at hq
      obtain ⟨k2, v2⟩ := q
      rw [lookupSnap_cons_self _ _ _ _ rfl] at hq
      exact absurd hq (by simp)
  | cons p t1 ih =>
    intro l2 h1 h2 hl
    obtain ⟨k1, v1⟩ := p
    cases l2 with
    | nil =>
      exfalso
      have hq := hl k1
      rw [lookupSnap_cons_self _ _ _ _ rfl] at hq
      rw [lookupSnap_eq_none [] k1 (by simp)] at hq
      exact absurd hq (by simp)
    | cons q t2 =>
      obtain ⟨k2, v2⟩ := q
      rw [List.pairwise_cons] at h1 h2
      rcases Nat.lt_trichotomy k1 k2 with hlt | heq | hgt
      · exfalso
        have hq := hl k1
        rw [lookupSnap_cons_self _ _ _ _ rfl] at hq
        rw [lookupSnap_cons_ne _ _ _ _ (by omega)] at hq
        rw [lookupSnap_eq_none t2 k1
          (fun p hp => by have := h2.1 p hp; omega)] at hq
        exact absurd hq (by simp)
      · subst heq
        have hv := hl k1
        rw [lookupSnap_cons_self _ _ _ _ rfl,
          lookupSnap_cons_self _ _ _ _ rfl] at hv
        obtain rfl := Option.some.inj hv
        have ht : t1 = t2 := by
          apply ih t2 h1.2 h2.2
          intro id
          by_cases hid : k1 = id
          · subst hid
            rw [lookupSnap_eq_none t1 k1
              (fun p hp => by have := h1.1 p hp; omega)]
            rw [lookupSnap_eq_none t2 k1
              (fun p hp => by have := h2.1 p hp; omega)]
          · have := hl id
            rwa [lookupSnap_cons_ne _ _ _ _ hid,
              lookupSnap_cons_ne _ _ _ _ hid] at this
        rw [ht]
      · exfalso
        have hq := hl k2
        rw [lookupSnap_cons_self _ _ _ _ rfl] at hq
        rw [lookupSnap_cons_ne _ _ _ _ (by omega)] at hq
        rw [lookupSnap_eq_none t1 k2
          (fun p hp => by have := h1.1 p hp; omega)] at hq
        exact absurd hq (by simp)

/-- C6: for the same logical id-to-node mapping, giving a root entry's
snapshot collection as an array of `[id, node]` pairs or as an id-keyed
object (in its canonical ascending-key form) produces identical output
trees — the whole transform agrees at every fuel. -/
theorem snapshot_representation_invariant (ps t : List (Nat × SnapshotNode))
    (ht : t.Pairwise (fun a b => a.1 < b.1))
    (hl : ∀ id, lookupSnap (fromEntries ps) id = lookupSnap t id)
    (cd : Option (List Commit)) (tl : Option (List Timeline)) (n : Nat) :
    parseProfilerForFlameGraph n ⟨[⟨cd, .arr ps⟩], tl⟩ =
      parseProfilerForFlameGraph n ⟨[⟨cd, .obj t⟩], tl⟩ := by
  have he : fromEntries ps = t :=
    sorted_lookup_ext _ _ (fromEntries_pairwise ps) ht hl
  have hnorm : normalizeSnapshots (.arr ps) = normalizeSnapshots (.obj t) := by
    simp [normalizeSnapshots, he]
  have hcd : buildComponentDurations ⟨[⟨cd, .arr ps⟩], tl⟩ =
      buildComponentDurations ⟨[⟨cd, .obj t⟩], tl⟩ := rfl
  have hctd : buildComponentTotalDurations ⟨[⟨cd, .arr ps⟩], tl⟩ =
      buildComponentTotalDurations ⟨[⟨cd, .obj t⟩], tl⟩ := by
    unfold buildComponentTotalDurations
    simp only [List.foldl_cons, List.foldl_nil]
    rw [hnorm]
  unfold parseProfilerForFlameGraph
  rw [hcd, hctd]
  unfold parseRoots
  dsimp only
  rw [hnorm]

/-- Witness for C6 at a concrete input: the pair array lists ids out of
order with a duplicate (later entry wins), the object gives the same logical
mapping in canonical order. -/
theorem snapshot_representation_invariant_witness :
    ([(2, ⟨[], some "B", 0⟩), (1, ⟨[2], some "App", 0⟩),
        (2, ⟨[], some "C", 0⟩)] : List (Nat × SnapshotNode)).Pairwise
      (fun a b => a.1 < b.1) = False ∧
    ([(1, ⟨[2], some "App", 0⟩), (2, ⟨[], some "C", 0⟩)] :
        List (Nat × SnapshotNode)).Pairwise (fun a b => a.1 < b.1) ∧
    parseProfilerForFlameGraph 3
        ⟨[⟨none, .arr [(2, ⟨[], some "B", 0⟩), (1, ⟨[2], some "App", 0⟩),
          (2, ⟨[], some "C", 0⟩)]⟩], none⟩ =
      parseProfilerForFlameGraph 3
        ⟨[⟨none, .obj [(1, ⟨[2], some "App", 0⟩), (2, ⟨[], some "C", 0⟩)]⟩],
          none⟩ :=
  ⟨by simp, by simp,
    snapshot_representation_invariant
      [(2, ⟨[], some "B", 0⟩), (1, ⟨[2], some "App", 0⟩), (2, ⟨[], some "C", 0⟩)]
      [(1, ⟨[2], some "App", 0⟩), (2, ⟨[], some "C", 0⟩)]
      (by simp)
      (by
        intro id
        by_cases h1 : id = 1
        · subst h1; rfl
        · by_cases h2 : id = 2
          · subst h2; rfl
          · rw [lookupSnap_eq_none _ _ (by
              intro p hp
              simp only [fromEntries, List.foldl_cons, List.foldl_nil] at hp
              rcases objInsert_mem _ _ _ _ hp with rfl | hp2
              · simpa using Ne.symm h2
              · rcases objInsert_mem _ _ _ _ hp2 with rfl | hp3
                · simpa using Ne.symm h1
                · rcases objInsert_mem _ _ _ _ hp3 with rfl | hp4
                  · simpa using Ne.symm h2
                  · simp at hp4)]
            rw [lookupSnap_eq_none _ _ (by
              intro p hp
              rcases List.mem_cons.mp hp with rfl | hp2
              · simpa using Ne.symm h1
              · rcases List.mem_cons.mp hp2 with rfl | hp3
                · simpa using Ne.symm h2
                · simp at hp3)])
      none none 3⟩

/-! ## C8: Memo(...) labels fold to "... (Memo)" as the join key -/

lemma memoWrap_toList (F : String) :
    ("Memo(" ++ F ++ ")").toList = "Memo(".toList ++ F.toList ++ [')'] := by
  show (("Memo(" ++ F) ++ ")").data = "Memo(".data ++ F.data ++ [')']
  rw [String.data_append, String.data_append]

lemma toList_ne_nil (F : String) (hF : F ≠ "") : F.toList ≠ [] := by
  intro h
  exact hF (String.ext h)

lemma parseMemo_wrap (F : String) (hF : F ≠ "")
    (hline : (F.toList.all fun c => !isLineTerm c) = true) :
    parseMemo ("Memo(" ++ F ++ ")") = (F, true) := by
  have hlen : 1 ≤ F.toList.length :=
    List.length_pos.mpr (toList_ne_nil F hF)
  have hdrop : ("Memo(" ++ F ++ ")").toList.drop 5 = F.toList ++ [')'] := by
    rw [memoWrap_toList, List.append_assoc]
    exact List.drop_left' (by rfl)
  have h5 : ("Memo(" : String).toList.length = 5 := rfl
  have hcond : ("Memo(" ++ F ++ ")").toList.take 5 = "Memo(".toList ∧
      7 ≤ ("Memo(" ++ F ++ ")").toList.length ∧
      ("Memo(" ++ F ++ ")").toList.getLast? = some ')' ∧
      ((("Memo(" ++ F ++ ")").toList.drop 5).dropLast.all
        fun c => !isLineTerm c) = true := by
    refine ⟨?_, ?_, ?_, ?_⟩
    · rw [memoWrap_toList, List.append_assoc]
      exact List.take_left' (by rfl)
    · rw [memoWrap_toList]
      simp only [List.length_append, List.length_singleton]
      omega
    · rw [memoWrap_toList]
      exact List.getLast?_concat _
    · rw [hdrop, List.dropLast_concat]
      exact hline
  unfold parseMemo
  rw [if_pos hcond, hdrop, List.dropLast_concat]
  rfl

lemma canonName_wrap (F : String) (hF : F ≠ "")
    (hline : (F.toList.all fun c => !isLineTerm c) = true) :
    canonName ("Memo(" ++ F ++ ")") = F ++ " (Memo)" := by
  unfold canonName
  rw [parseMemo_wrap F hF hline]
  rfl

lemma parseMemo_not_memo (F : String) (h : (parseMemo F).2 = false) :
    parseMemo F = (F, false) := by
  unfold parseMemo at h ⊢
  split at h
  · simp at h
  · rename_i hc
    rw [if_neg hc]

lemma canonName_not_memo (F : String) (h : (parseMemo F).2 = false) :
    canonName F = F := by
  unfold canonName
  rw [parseMemo_not_memo F h]
  rfl

lemma ne_append_memo (F : String) : F ++ " (Memo)" ≠ F := by
  intro h
  have hd : (F ++ " (Memo)").data.length = F.data.length := by rw [h]
  rw [String.data_append, List.length_append] at hd
  have h7 : (" (Memo)" : String).data.length = 7 := rfl
  omega

/-- A leaf node (no children) build in one step: canonical name resolved,
both queues shifted, duration = fiber head if any else measure head. -/
lemma build_leaf (n id : Nat) (snaps : Snapshots) (node : SnapshotNode)
    (pd : Option ℚ) (st : DurState) (hlk : lookupSnap snaps id = some node)
    (hch : node.children = []) :
    buildFuel (n + 1) id snaps pd st =
      some (annotate (canonName (resolveDisplayName node))
          ((shiftQueue st.componentTotalDurations
              (canonName (resolveDisplayName node))).1 <|>
            (shiftQueue st.componentDurations
              (canonName (resolveDisplayName node))).1)
          (nodeValue
            ((shiftQueue st.componentTotalDurations
                (canonName (resolveDisplayName node))).1 <|>
              (shiftQueue st.componentDurations
                (canonName (resolveDisplayName node))).1) 0) none,
        ⟨(shiftQueue st.componentTotalDurations
            (canonName (resolveDisplayName node))).2,
          (shiftQueue st.componentDurations
            (canonName (resolveDisplayName node))).2⟩) := by
  rw [buildFuel_succ]
  unfold buildStep
  rw [hlk]
  dsimp only
  rw [if_neg (by rw [hch]; simp)]
  rw [hch]
  rfl

/-- C8: a `Memo(F)` label canonicalizes to `F ++ " (Memo)"` wherever names
are used for matching: a `Memo(F)`-labelled render measure is indexed under
that canonical name; a structural node displaying `Memo(F)` dequeues from
that same queue; and a structural node displaying plain `F` dequeues from
the `F` queue and leaves both `F ++ " (Memo)"` queues untouched. -/
theorem memo_name_folding (F : String) (d e : ℚ) (ds es : List ℚ)
    (ts1 : ℚ) (fibM mM fibP mP : DurMap)
    (hF : F ≠ "") (hline : (F.toList.all fun c => !isLineTerm c) = true)
    (hplain : (parseMemo F).2 = false)
    (hfibM : fibM (F ++ " (Memo)") = [])
    (hmM : mM (F ++ " (Memo)") = d :: ds)
    (hfibP : fibP F = [])
    (hmP : mP F = e :: es) :
    canonName ("Memo(" ++ F ++ ")") = F ++ " (Memo)" ∧
    pushMeasure emptyDM ⟨"Memo(" ++ F ++ ")", d, ts1, "render"⟩
      (F ++ " (Memo)") = [d] ∧
    (∃ st' : DurState,
      buildFuel 1 1 [(1, ⟨[], some ("Memo(" ++ F ++ ")"), 0⟩)] none
          ⟨fibM, mM⟩ =
        some (annotate (F ++ " (Memo)") (some d) (nodeValue (some d) 0) none,
          st') ∧
      st'.componentDurations (F ++ " (Memo)") = ds) ∧
    (∃ st' : DurState,
      buildFuel 1 1 [(1, ⟨[], some F, 0⟩)] none ⟨fibP, mP⟩ =
        some (annotate F (some e) (nodeValue (some e) 0) none, st') ∧
      st'.componentDurations (F ++ " (Memo)") = mP (F ++ " (Memo)") ∧
      st'.componentTotalDurations (F ++ " (Memo)") = fibP (F ++ " (Memo)") ∧
      st'.componentDurations F = es) := by
  have hco : canonName ("Memo(" ++ F ++ ")") = F ++ " (Memo)" :=
    canonName_wrap F hF hline
  have hneM : ("Memo(" ++ F ++ ")" : String) ≠ "" :=
    strAppend_ne_empty _ _ (by decide)
  have hresM : resolveDisplayName ⟨[], some ("Memo(" ++ F ++ ")"), 0⟩ =
      "Memo(" ++ F ++ ")" := by
    unfold resolveDisplayName
    dsimp only
    rw [if_neg hneM]
  have hresP : resolveDisplayName ⟨[], some F, 0⟩ = F := by
    unfold resolveDisplayName
    dsimp only
    rw [if_neg hF]
  have hcoP : canonName F = F := canonName_not_memo F hplain
  refine ⟨hco, ?_, ?_, ?_⟩
  · unfold pushMeasure
    rw [if_pos ⟨hneM, rfl⟩]
    dsimp only
    rw [hco]
    simp [pushDur, emptyDM]
  · refine ⟨⟨(shiftQueue fibM (F ++ " (Memo)")).2,
      (shiftQueue mM (F ++ " (Memo)")).2⟩, ?_, ?_⟩
    · rw [build_leaf 0 1 [(1, ⟨[], some ("Memo(" ++ F ++ ")"), 0⟩)]
        ⟨[], some ("Memo(" ++ F ++ ")"), 0⟩ none ⟨fibM, mM⟩ rfl rfl]
      simp only [hresM, hco]
      simp only [shiftQueue, hfibM, hmM]
      rfl
    · dsimp only
      rw [shiftQueue_snd_self, hmM]
      rfl
  · refine ⟨⟨(shiftQueue fibP F).2, (shiftQueue mP F).2⟩, ?_, ?_, ?_, ?_⟩
    · rw [build_leaf 0 1 [(1, ⟨[], some F, 0⟩)] ⟨[], some F, 0⟩ none
        ⟨fibP, mP⟩ rfl rfl]
      simp only [hresP, hcoP]
      simp only [shiftQueue, hfibP, hmP]
      rfl
    · dsimp only
      exact shiftQueue_snd_other mP F _ (ne_append_memo F)
    · dsimp only
      rw [shiftQueue, hfibP]
    · dsimp only
      rw [shiftQueue_snd_self, hmP]
      rfl

/-- Witness for C8 at a concrete input: `F = "Foo"` with durations 1 and 2. -/
theorem memo_name_folding_witness :
    ("Foo" : String) ≠ "" ∧
    (("Foo" : String).toList.all fun c => !isLineTerm c) = true ∧
    (parseMemo "Foo").2 = false ∧
    (fun _ => ([] : List ℚ)) ("Foo" ++ " (Memo)") = [] ∧
    (fun n => if n = "Foo" ++ " (Memo)" then [(1 : ℚ)] else [])
      ("Foo" ++ " (Memo)") = [1] ∧
    (fun _ => ([] : List ℚ)) "Foo" = [] ∧
    (fun n => if n = "Foo" then [(2 : ℚ)] else []) "Foo" = [2] ∧
    (canonName ("Memo(" ++ "Foo" ++ ")") = "Foo" ++ " (Memo)" ∧
      pushMeasure emptyDM ⟨"Memo(" ++ "Foo" ++ ")", 1, 0, "render"⟩
        ("Foo" ++ " (Memo)") = [1] ∧
      (∃ st' : DurState,
        buildFuel 1 1 [(1, ⟨[], some ("Memo(" ++ "Foo" ++ ")"), 0⟩)] none
            ⟨fun _ => [], fun n => if n = "Foo" ++ " (Memo)" then [(1 : ℚ)] else []⟩ =
          some (annotate ("Foo" ++ " (Memo)") (some 1) (nodeValue (some 1) 0)
            none, st') ∧
        st'.componentDurations ("Foo" ++ " (Memo)") = []) ∧
      (∃ st' : DurState,
        buildFuel 1 1 [(1, ⟨[], some "Foo", 0⟩)] none
            ⟨fun _ => [], fun n => if n = "Foo" then [(2 : ℚ)] else []⟩ =
          some (annotate "Foo" (some 2) (nodeValue (some 2) 0) none, st') ∧
        st'.componentDurations ("Foo" ++ " (Memo)") =
          (fun n => if n = "Foo" then [(2 : ℚ)] else [])
            ("Foo" ++ " (Memo)") ∧
        st'.componentTotalDurations ("Foo" ++ " (Memo)") =
          (fun _ => ([] : List ℚ)) ("Foo" ++ " (Memo)") ∧
        st'.componentDurations "Foo" = [])) :=
  ⟨by decide, by decide, by decide, rfl, by decide, rfl, by decide,
    memo_name_folding "Foo" 1 2 [] [] 0
      (fun _ => []) (fun n => if n = "Foo" ++ " (Memo)" then [(1 : ℚ)] else [])
      (fun _ => []) (fun n => if n = "Foo" then [(2 : ℚ)] else [])
      (by decide) (by decide) (by decide) rfl (by decide) rfl (by decide)⟩

/-! ## C5: duration matching is order-preserving and non-reusing -/

/-- A capture whose root "App" has three structurally identical "Foo"
children, with two recorded render durations `d1` then `d2` for "Foo". -/
def c5Json (d1 d2 : ℚ) : ProfilerJSON :=
  ⟨[⟨some [], .obj [(1, ⟨[2, 3, 4], some "App", 0⟩), (2, ⟨[], some "Foo", 0⟩),
      (3, ⟨[], some "Foo", 0⟩), (4, ⟨[], some "Foo", 0⟩)]⟩],
    some [⟨some [⟨"Foo", d1, 0, "render"⟩, ⟨"Foo", d2, 0, "render"⟩]⟩]⟩

/-- C5: with durations `d1` then `d2` recorded for canonical name "Foo", the
first "Foo" instance in traversal order is annotated with `d1`, the second
with `d2`, and the third gets no duration: neutral background color
`#9ca3af` and a bare "Foo" label with no duration suffix.  Entries are
consumed exactly once, in FIFO order. -/
theorem fifo_duration_matching (d1 d2 : ℚ) :
    parseProfilerForFlameGraph 2 (c5Json d1 d2) =
      some [annotate "App" none
        (nodeValue none
          (nodeValue (some d1) 0 + (nodeValue (some d2) 0 + (1 + 0))))
        (some [annotate "Foo" (some d1) (nodeValue (some d1) 0) none,
          annotate "Foo" (some d2) (nodeValue (some d2) 0) none,
          annotate "Foo" none 1 none])] ∧
    (annotate "Foo" none 1 none).backgroundColor = some "#9ca3af" ∧
    (annotate "Foo" none 1 none).name = "Foo" :=
  ⟨rfl, rfl, rfl⟩

end Profiler
